import Mathlib

/-!
# Doctor listing page: search, filter, sort and URL state (`src/App.js`)

A shallow embedding of the state container of the `App` component: the React
state cells become the fields of `State`, every handler becomes a function
`State → State`, and the two effects that depend on the state (`applyFilters`
and the URL synchronisation) become functions run after every state change.

Host facilities are embedded as follows.

* JavaScript strings are `String`; a string is truthy when it is not `""`.
* `String.prototype.toLowerCase` is a Unicode table of the host and is taken
  as a parameter `toLowerCase : String → String` of every function that calls
  it; `asciiLower` is its restriction to ASCII text, used on concrete inputs.
* `Set` is `JSSet`: the elements in insertion order, without repetition.
* `URLSearchParams` is the list of its name/value pairs.
* `Array.prototype.sort` is a stable sort driven by the sign of the comparator.
* `fees` and `experience` are integers.
-/

namespace DoctorApp

/-! ## Host strings -/

/-- Truthiness of a JavaScript string: every string but the empty one. -/
def truthy (s : String) : Bool := s != ""

/-- String.prototype.includes: `search` occurs in `s` as a contiguous run. -/
def includes (s search : String) : Bool :=
  s.data.tails.any (fun t => search.data.isPrefixOf t)

/-- Code points removed by String.prototype.trim (WhiteSpace and LineTerminator). -/
def isWhiteSpace (c : Char) : Bool :=
  let n := c.toNat
  n == 0x9 || n == 0xA || n == 0xB || n == 0xC || n == 0xD || n == 0x20 ||
  n == 0xA0 || n == 0x1680 || (0x2000 ≤ n && n ≤ 0x200A) || n == 0x2028 ||
  n == 0x2029 || n == 0x202F || n == 0x205F || n == 0x3000 || n == 0xFEFF

/-- String.prototype.trim. -/
def trim (s : String) : String :=
  ⟨((s.data.dropWhile isWhiteSpace).reverse.dropWhile isWhiteSpace).reverse⟩

/-- The host lower-casing restricted to ASCII: `A`..`Z` go to `a`..`z`. -/
def asciiLower (s : String) : String :=
  ⟨s.data.map (fun c => if 65 ≤ c.toNat ∧ c.toNat ≤ 90 then Char.ofNat (c.toNat + 32) else c)⟩

/-! ## Host `Set` of strings -/

/-- A JavaScript `Set` of strings: its elements in insertion order, each once. -/
structure JSSet where
  items : List String
  nodup : items.Nodup

namespace JSSet

/-- The value of `new Set()`. -/
def empty : JSSet := ⟨[], List.nodup_nil⟩

/-- Set.prototype.has. -/
def has (s : JSSet) (x : String) : Bool := decide (x ∈ s.items)

/-- Set.prototype.size. -/
def size (s : JSSet) : Nat := s.items.length

/-- Set.prototype.add: a new element goes last, a present one is left in place. -/
def add (s : JSSet) (x : String) : JSSet :=
  if h : x ∈ s.items then s
  else ⟨s.items ++ [x], List.Nodup.append s.nodup (List.nodup_singleton x)
    (by
      intro a ha hx
      rw [List.mem_singleton] at hx
      exact h (hx ▸ ha))⟩

/-- Set.prototype.delete. -/
def delete (s : JSSet) (x : String) : JSSet :=
  ⟨s.items.filter (fun y => y != x), s.nodup.filter _⟩

/-- The value of `new Set(iterable)`: the elements are added one by one. -/
def ofList (l : List String) : JSSet := l.foldl add empty

/-- The value of `new Set(s)`: a copy of `s`. -/
def copy (s : JSSet) : JSSet := ofList s.items

end JSSet

/-! ## Host `URLSearchParams` -/

/-- The name/value pairs of a `URLSearchParams` object, in order. -/
abbrev URLSearchParams := List (String × String)

namespace URLSearchParams

/-- URLSearchParams.get: the first value of `name`, or `null`. -/
def get (p : URLSearchParams) (name : String) : Option String :=
  (p.find? (fun kv => kv.1 == name)).map (fun kv => kv.2)

/-- URLSearchParams.getAll: every value of `name`, in order. -/
def getAll (p : URLSearchParams) (name : String) : List String :=
  (p.filter (fun kv => kv.1 == name)).map (fun kv => kv.2)

/-- URLSearchParams.append. -/
def append (p : URLSearchParams) (name value : String) : URLSearchParams :=
  p ++ [(name, value)]

/-- Replace the value of the first pair named `name` and drop the later ones. -/
def replaceFirst (name value : String) : URLSearchParams → URLSearchParams
  | [] => []
  | kv :: rest =>
    if kv.1 == name then (name, value) :: rest.filter (fun kv2 => kv2.1 != name)
    else kv :: replaceFirst name value rest

/-- URLSearchParams.set. -/
def set (p : URLSearchParams) (name value : String) : URLSearchParams :=
  if p.any (fun kv => kv.1 == name) then replaceFirst name value p
  else p.append name value

end URLSearchParams

/-- The value of `x || ""` for `x` a string or `null`. -/
def orEmpty (x : Option String) : String :=
  match x with
  | some s => if truthy s then s else ""
  | none => ""

/-! ## Host `Array.prototype.sort` -/

/-- Insert `a` before the first element it does not have to follow. -/
def sortInsert {α : Type} (compareFn : α → α → Int) (a : α) : List α → List α
  | [] => [a]
  | b :: l => if compareFn a b ≤ 0 then a :: b :: l else b :: sortInsert compareFn a l

/-- Array.prototype.sort with a comparator: `a` goes after `b` only when
`compareFn a b > 0`, and elements that compare equal keep their order. -/
def sort {α : Type} (compareFn : α → α → Int) : List α → List α
  | [] => []
  | a :: l => sortInsert compareFn a (sort compareFn l)

/-! ## Data model -/

/-- A doctor record as supplied by the data endpoint. -/
structure Doctor where
  name : String
  specialties : List String
  videoConsult : Bool
  inClinic : Bool
  fees : Int
  experience : Int
  qualification : String
  clinicName : String
  location : String
  image : Option String
  deriving DecidableEq, Repr

/-- The `filters` state cell. -/
structure Filters where
  mode : String
  specialties : JSSet
  sort : String

/-- The state cells of `App`. -/
structure State where
  doctors : List Doctor
  filteredDoctors : List Doctor
  searchQuery : String
  suggestions : List Doctor
  searchParams : URLSearchParams
  filters : Filters

/-- The state of the first render, for the query string `searchParams`. -/
def initialState (searchParams : URLSearchParams) : State where
  doctors := []
  filteredDoctors := []
  searchQuery := ""
  suggestions := []
  searchParams := searchParams
  filters :=
    { mode := orEmpty (searchParams.get "mode")
      specialties := JSSet.ofList (searchParams.getAll "specialty")
      sort := orEmpty (searchParams.get "sort") }

/-- The success branch of the fetch effect, for a response whose `doctors`
field is `doctors` (an absent field is the empty list). -/
def doctorsLoaded (s : State) (doctors : List Doctor) : State :=
  { s with doctors := doctors, filteredDoctors := doctors }

/-- The parameters built by the URL synchronisation effect. -/
def buildParams (filters : Filters) (searchQuery : String) : URLSearchParams :=
  let params : URLSearchParams := []
  let params := if truthy filters.mode then params.set "mode" filters.mode else params
  let params := if truthy filters.sort then params.set "sort" filters.sort else params
  let params := if truthy searchQuery then params.set "search" searchQuery else params
  filters.specialties.items.foldl (fun p specialty => p.append "specialty" specialty) params

/-- The URL synchronisation effect. -/
def syncUrl (s : State) : State :=
  { s with searchParams := buildParams s.filters s.searchQuery }

/-- The list `applyFilters` hands to `setFilteredDoctors`. -/
def applyFiltersResult (toLowerCase : String → String) (doctors : List Doctor)
    (searchQuery : String) (filters : Filters) : List Doctor :=
  let result := doctors
  let result :=
    if truthy searchQuery then
      result.filter (fun doctor => includes (toLowerCase doctor.name) (toLowerCase searchQuery))
    else result
  let result :=
    if truthy filters.mode then
      result.filter (fun doctor =>
        if filters.mode == "video" then doctor.videoConsult
        else if filters.mode == "clinic" then doctor.inClinic
        else true)
    else result
  let result :=
    if filters.specialties.size > 0 then
      result.filter (fun doctor => doctor.specialties.any (fun s => filters.specialties.has s))
    else result
  if filters.sort == "fees" then
    sort (fun a b => a.fees - b.fees) result
  else if filters.sort == "experience" then
    sort (fun a b => b.experience - a.experience) result
  else result

/-- The effect `applyFilters`. -/
def applyFilters (toLowerCase : String → String) (s : State) : State :=
  { s with filteredDoctors := applyFiltersResult toLowerCase s.doctors s.searchQuery s.filters }

/-- The handler of the search box, for the typed text `query`. -/
def handleSearchChange (toLowerCase : String → String) (s : State) (query : String) : State :=
  let s := { s with searchQuery := query }
  if truthy (trim query) then
    let matchedSuggestions :=
      (s.doctors.filter (fun doc => includes (toLowerCase doc.name) (toLowerCase query))).take 3
    { s with suggestions := matchedSuggestions }
  else
    { s with suggestions := [] }

/-- The handler of a click on a suggestion. -/
def handleSelectSuggestion (s : State) (doctorName : String) : State :=
  { s with searchQuery := doctorName, suggestions := [] }

/-- The handler of a specialty checkbox. -/
def handleSpecialtyToggle (s : State) (specialty : String) : State :=
  let newSpecialties := s.filters.specialties.copy
  let newSpecialties :=
    if newSpecialties.has specialty then newSpecialties.delete specialty
    else newSpecialties.add specialty
  { s with filters := { s.filters with specialties := newSpecialties } }

/-- The handler of the consultation-mode radio group. -/
def handleModeChange (s : State) (mode : String) : State :=
  { s with filters := { s.filters with mode := mode } }

/-- The handler of the sort radio group. -/
def handleSortChange (s : State) (sort : String) : State :=
  { s with filters := { s.filters with sort := sort } }

/-- The handler of "Clear All". -/
def clearFilters (s : State) : State :=
  { s with
    filters := { mode := "", specialties := JSSet.empty, sort := "" }
    searchQuery := ""
    suggestions := [] }

/-! ## The user interface as a transition system -/

/-- The `display` names of `allSpecialties`, in the order of the checkbox list. -/
def allSpecialties : List String :=
  ["General Physician", "Dentist", "Dermatologist", "Paediatrician", "Gynaecologist", "ENT",
   "Diabetologist", "Cardiologist", "Physiotherapist", "Endocrinologist", "Orthopaedic",
   "Ophthalmologist", "Gastroenterologist", "Pulmonologist", "Psychiatrist", "Urologist",
   "Dietitian/Nutritionist", "Psychologist", "Sexologist", "Nephrologist", "Neurologist",
   "Oncologist", "Ayurveda", "Homeopath"]

/-- What can happen to the page: the fetch resolving, and every input wired in
the markup with the argument the markup passes to its handler. -/
inductive Event where
  | fetched (doctors : List Doctor)
  | searchInput (value : String)
  | suggestionClick (index : Nat)
  | sortFees
  | sortExperience
  | clearAll
  | specialtyCheckbox (index : Nat)
  | modeVideo
  | modeClinic
  | modeAll

/-- The handler call the markup makes for an event. A click on a suggestion or
a checkbox that is not rendered changes nothing. -/
def dispatch (toLowerCase : String → String) (s : State) : Event → State
  | .fetched doctors => doctorsLoaded s doctors
  | .searchInput value => handleSearchChange toLowerCase s value
  | .suggestionClick index =>
    match s.suggestions.get? index with
    | some doctor => handleSelectSuggestion s doctor.name
    | none => s
  | .sortFees => handleSortChange s "fees"
  | .sortExperience => handleSortChange s "experience"
  | .clearAll => clearFilters s
  | .specialtyCheckbox index =>
    match allSpecialties.get? index with
    | some display => handleSpecialtyToggle s display
    | none => s
  | .modeVideo => handleModeChange s "video"
  | .modeClinic => handleModeChange s "clinic"
  | .modeAll => handleModeChange s ""

/-- The two state-driven effects, run after a render. -/
def runEffects (toLowerCase : String → String) (s : State) : State :=
  syncUrl (applyFilters toLowerCase s)

/-- The page after its first render and effects, for an initial query string. -/
def mount (toLowerCase : String → String) (searchParams : URLSearchParams) : State :=
  runEffects toLowerCase (initialState searchParams)

/-- One event: its handler, then the effects. -/
def step (toLowerCase : String → String) (s : State) (e : Event) : State :=
  runEffects toLowerCase (dispatch toLowerCase s e)

/-- The page after a sequence of events. -/
def run (toLowerCase : String → String) (s : State) (events : List Event) : State :=
  events.foldl (step toLowerCase) s

/-- The values the data model lists for `mode` and `sort`. -/
def enumerated (filters : Filters) : Prop :=
  (filters.mode = "" ∨ filters.mode = "video" ∨ filters.mode = "clinic") ∧
  (filters.sort = "" ∨ filters.sort = "fees" ∨ filters.sort = "experience")

instance (filters : Filters) : Decidable (enumerated filters) := by
  unfold enumerated
  infer_instance

/-- The three filter steps of `applyFilters` as one test on a record. -/
def keeps (toLowerCase : String → String) (searchQuery : String) (filters : Filters)
    (doctor : Doctor) : Bool :=
  (!truthy searchQuery || includes (toLowerCase doctor.name) (toLowerCase searchQuery)) &&
  (filters.mode != "video" || doctor.videoConsult) &&
  (filters.mode != "clinic" || doctor.inClinic) &&
  (filters.specialties.size == 0 || doctor.specialties.any (fun x => filters.specialties.has x))

/-! ## Sample data -/

/-- The record `Ann` of the worked example: fee 500, 3 years. -/
def ann : Doctor :=
  { name := "Ann", specialties := ["Dentist"], videoConsult := true, inClinic := false,
    fees := 500, experience := 3, qualification := "BDS", clinicName := "Smile",
    location := "Pune", image := none }

/-- The record `Dan` of the worked example: fee 300, 5 years. -/
def dan : Doctor :=
  { name := "Dan", specialties := ["ENT"], videoConsult := false, inClinic := true,
    fees := 300, experience := 5, qualification := "MBBS", clinicName := "City",
    location := "Delhi", image := none }

/-- A third record, whose name does not contain "an". -/
def bob : Doctor :=
  { name := "Bob", specialties := ["Dentist", "ENT"], videoConsult := true, inClinic := true,
    fees := 400, experience := 9, qualification := "MD", clinicName := "Care",
    location := "Agra", image := none }

/-- A page holding the sample records, with the given query and filters. -/
def sample (searchQuery mode sort : String) (specialties : List String) : State :=
  { doctors := [ann, bob, dan]
    filteredDoctors := []
    searchQuery := searchQuery
    suggestions := []
    searchParams := []
    filters := { mode := mode, specialties := JSSet.ofList specialties, sort := sort } }

/-! ## Properties of the host model -/

theorem truthy_iff (s : String) : truthy s = true ↔ s ≠ "" := by
  simp [truthy]

theorem sortInsert_perm {α : Type} (compareFn : α → α → Int) (a : α) (l : List α) :
    (sortInsert compareFn a l).Perm (a :: l) := by
  induction l with
  | nil => exact List.Perm.refl _
  | cons b l ih =>
    unfold sortInsert
    split
    · exact List.Perm.refl _
    · exact (ih.cons b).trans (List.Perm.swap a b l)

theorem sort_perm {α : Type} (compareFn : α → α → Int) (l : List α) :
    (sort compareFn l).Perm l := by
  induction l with
  | nil => exact List.Perm.refl _
  | cons a l ih => exact (sortInsert_perm compareFn a _).trans (ih.cons a)

theorem sortInsert_pairwise {α : Type} (compareFn : α → α → Int)
    (total : ∀ a b, compareFn a b ≤ 0 ∨ compareFn b a ≤ 0)
    (trans : ∀ a b c, compareFn a b ≤ 0 → compareFn b c ≤ 0 → compareFn a c ≤ 0)
    (a : α) (l : List α) (hl : l.Pairwise (fun x y => compareFn x y ≤ 0)) :
    (sortInsert compareFn a l).Pairwise (fun x y => compareFn x y ≤ 0) := by
  induction l with
  | nil => simp [sortInsert]
  | cons b l ih =>
    rw [List.pairwise_cons] at hl
    unfold sortInsert
    split
    · rename_i hab
      refine List.pairwise_cons.2 ⟨?_, List.pairwise_cons.2 hl⟩
      intro c hc
      rcases List.mem_cons.1 hc with rfl | hc
      · exact hab
      · exact trans a b c hab (hl.1 c hc)
    · rename_i hab
      have hba : compareFn b a ≤ 0 := (total a b).resolve_left hab
      refine List.pairwise_cons.2 ⟨?_, ih hl.2⟩
      intro c hc
      rcases List.mem_cons.1 ((sortInsert_perm compareFn a l).mem_iff.1 hc) with rfl | hc
      · exact hba
      · exact hl.1 c hc

theorem sort_pairwise {α : Type} (compareFn : α → α → Int)
    (total : ∀ a b, compareFn a b ≤ 0 ∨ compareFn b a ≤ 0)
    (trans : ∀ a b c, compareFn a b ≤ 0 → compareFn b c ≤ 0 → compareFn a c ≤ 0)
    (l : List α) : (sort compareFn l).Pairwise (fun x y => compareFn x y ≤ 0) := by
  induction l with
  | nil => simp [sort]
  | cons a l ih => exact sortInsert_pairwise compareFn total trans a _ ih

theorem ite_filter {α : Type} (c : Prop) [Decidable c] (p : α → Bool) (l : List α) :
    (if c then l.filter p else l) = l.filter (fun a => !decide c || p a) := by
  by_cases h : c <;> simp [h]

theorem modeTest_eq (mode : String) (d : Doctor) :
    (!decide (truthy mode = true) ||
      (if mode == "video" then d.videoConsult
        else if mode == "clinic" then d.inClinic else true)) =
    ((mode != "video" || d.videoConsult) && (mode != "clinic" || d.inClinic)) := by
  by_cases h1 : mode = "video"
  · subst h1
    simp [truthy]
  · by_cases h2 : mode = "clinic"
    · subst h2
      simp [truthy]
    · simp [h1, h2]

/-- The list handed to `setFilteredDoctors`: one filter pass, then the sort. -/
theorem applyFiltersResult_eq (toLowerCase : String → String) (doctors : List Doctor)
    (searchQuery : String) (filters : Filters) :
    applyFiltersResult toLowerCase doctors searchQuery filters =
      if filters.sort == "fees" then
        sort (fun a b => a.fees - b.fees) (doctors.filter (keeps toLowerCase searchQuery filters))
      else if filters.sort == "experience" then
        sort (fun a b => b.experience - a.experience)
          (doctors.filter (keeps toLowerCase searchQuery filters))
      else doctors.filter (keeps toLowerCase searchQuery filters) := by
  have hp : ∀ d : Doctor,
      ((!decide (filters.specialties.size > 0) ||
          d.specialties.any (fun s => filters.specialties.has s)) &&
        ((!decide (truthy filters.mode = true) ||
            (if filters.mode == "video" then d.videoConsult
              else if filters.mode == "clinic" then d.inClinic else true)) &&
          (!decide (truthy searchQuery = true) ||
            includes (toLowerCase d.name) (toLowerCase searchQuery)))) =
      keeps toLowerCase searchQuery filters d := by
    intro d
    rw [modeTest_eq]
    unfold keeps
    have hsz : decide (filters.specialties.size > 0) = !(filters.specialties.size == 0) := by
      by_cases h : filters.specialties.size = 0
      · simp [h]
      · simp [h, Nat.pos_of_ne_zero h]
    rw [hsz]
    cases truthy searchQuery <;> cases includes (toLowerCase d.name) (toLowerCase searchQuery) <;>
      cases (filters.mode != "video" || d.videoConsult) <;>
      cases (filters.mode != "clinic" || d.inClinic) <;>
      cases (filters.specialties.size == 0) <;>
      cases d.specialties.any (fun s => filters.specialties.has s) <;> rfl
  have hfun : (fun d : Doctor =>
      ((!decide (filters.specialties.size > 0) ||
          d.specialties.any (fun s => filters.specialties.has s)) &&
        ((!decide (truthy filters.mode = true) ||
            (if filters.mode == "video" then d.videoConsult
              else if filters.mode == "clinic" then d.inClinic else true)) &&
          (!decide (truthy searchQuery = true) ||
            includes (toLowerCase d.name) (toLowerCase searchQuery))))) =
      keeps toLowerCase searchQuery filters := funext hp
  unfold applyFiltersResult
  simp only [ite_filter (truthy searchQuery = true)]
  simp only [ite_filter (truthy filters.mode = true)]
  simp only [ite_filter (filters.specialties.size > 0)]
  simp only [List.filter_filter, hfun]

theorem keeps_iff (toLowerCase : String → String) (searchQuery : String) (filters : Filters)
    (d : Doctor) :
    keeps toLowerCase searchQuery filters d = true ↔
      (searchQuery = "" ∨ includes (toLowerCase d.name) (toLowerCase searchQuery) = true) ∧
      (filters.mode ≠ "video" ∨ d.videoConsult = true) ∧
      (filters.mode ≠ "clinic" ∨ d.inClinic = true) ∧
      (filters.specialties.size = 0 ∨ ∃ x ∈ d.specialties, filters.specialties.has x = true) := by
  simp [keeps, truthy, and_assoc]

theorem mem_applyFiltersResult (toLowerCase : String → String) (doctors : List Doctor)
    (searchQuery : String) (filters : Filters) (d : Doctor) :
    d ∈ applyFiltersResult toLowerCase doctors searchQuery filters ↔
      d ∈ doctors ∧ keeps toLowerCase searchQuery filters d = true := by
  rw [applyFiltersResult_eq]
  split
  · rw [(sort_perm _ _).mem_iff, List.mem_filter]
  · split
    · rw [(sort_perm _ _).mem_iff, List.mem_filter]
    · rw [List.mem_filter]

/-! ## The filter pipeline -/

/-- C1: a record is in the list computed by `applyFilters` exactly when it is
one of the original records and passes the search test, the two mode tests and
the specialty test together, whatever the sort option is. -/
theorem applyFilters_mem_iff (toLowerCase : String → String) (s : State) (d : Doctor) :
    d ∈ (applyFilters toLowerCase s).filteredDoctors ↔
      d ∈ s.doctors ∧
      (s.searchQuery = "" ∨ includes (toLowerCase d.name) (toLowerCase s.searchQuery) = true) ∧
      (s.filters.mode ≠ "video" ∨ d.videoConsult = true) ∧
      (s.filters.mode ≠ "clinic" ∨ d.inClinic = true) ∧
      (s.filters.specialties.size = 0 ∨
        ∃ x ∈ d.specialties, s.filters.specialties.has x = true) := by
  show d ∈ applyFiltersResult toLowerCase s.doctors s.searchQuery s.filters ↔ _
  rw [mem_applyFiltersResult, keeps_iff]

/-- C2: with sort "fees" the computed list has non-decreasing fees from each
element to the next, and with sort "experience" it has non-increasing
experience from each element to the next. -/
theorem applyFilters_sorted (toLowerCase : String → String) (s : State) :
    (s.filters.sort = "fees" →
      List.Chain' (fun a b : Doctor => a.fees ≤ b.fees)
        (applyFilters toLowerCase s).filteredDoctors) ∧
    (s.filters.sort = "experience" →
      List.Chain' (fun a b : Doctor => b.experience ≤ a.experience)
        (applyFilters toLowerCase s).filteredDoctors) := by
  constructor
  · intro h
    show List.Chain' _ (applyFiltersResult toLowerCase s.doctors s.searchQuery s.filters)
    rw [applyFiltersResult_eq, h]
    simp only [beq_self_eq_true, if_true]
    refine List.Chain'.imp ?_ (List.Pairwise.chain'
      (sort_pairwise (fun a b : Doctor => a.fees - b.fees) ?_ ?_ _))
    · intro a b hab
      omega
    · intro a b
      show a.fees - b.fees ≤ 0 ∨ b.fees - a.fees ≤ 0
      omega
    · intro a b c hab hbc
      show a.fees - c.fees ≤ 0
      have h1 : a.fees - b.fees ≤ 0 := hab
      have h2 : b.fees - c.fees ≤ 0 := hbc
      omega
  · intro h
    show List.Chain' _ (applyFiltersResult toLowerCase s.doctors s.searchQuery s.filters)
    rw [applyFiltersResult_eq, h]
    have hne : ("experience" == "fees") = false := by decide
    simp only [hne, beq_self_eq_true, if_true]
    refine List.Chain'.imp ?_ (List.Pairwise.chain'
      (sort_pairwise (fun a b : Doctor => b.experience - a.experience) ?_ ?_ _))
    · intro a b hab
      omega
    · intro a b
      show b.experience - a.experience ≤ 0 ∨ a.experience - b.experience ≤ 0
      omega
    · intro a b c hab hbc
      show c.experience - a.experience ≤ 0
      have h1 : b.experience - a.experience ≤ 0 := hab
      have h2 : c.experience - b.experience ≤ 0 := hbc
      omega

/-- Witness for C2 on the sample records: under the filter "an" the fee sort
gives Dan (300) then Ann (500), the experience sort gives Dan (5) then Ann (3). -/
theorem applyFilters_sorted_witness :
    ((sample "an" "" "fees" []).filters.sort = "fees" ∧
      (applyFilters asciiLower (sample "an" "" "fees" [])).filteredDoctors = [dan, ann] ∧
      List.Chain' (fun a b : Doctor => a.fees ≤ b.fees)
        (applyFilters asciiLower (sample "an" "" "fees" [])).filteredDoctors) ∧
    ((sample "" "" "experience" []).filters.sort = "experience" ∧
      (applyFilters asciiLower (sample "" "" "experience" [])).filteredDoctors = [bob, dan, ann] ∧
      List.Chain' (fun a b : Doctor => b.experience ≤ a.experience)
        (applyFilters asciiLower (sample "" "" "experience" [])).filteredDoctors) :=
  ⟨⟨rfl, by decide, (applyFilters_sorted asciiLower (sample "an" "" "fees" [])).1 rfl⟩,
   ⟨rfl, by decide, (applyFilters_sorted asciiLower (sample "" "" "experience" [])).2 rfl⟩⟩

/-- C6: with sort "" the computed list is the original record list with the
records that fail a test removed: the records kept are in their original
relative order and are the very records of the original list. -/
theorem applyFilters_unsorted (toLowerCase : String → String) (s : State)
    (h : s.filters.sort = "") :
    (applyFilters toLowerCase s).filteredDoctors =
      s.doctors.filter (fun d =>
        (s.searchQuery == "" || includes (toLowerCase d.name) (toLowerCase s.searchQuery)) &&
        (s.filters.mode != "video" || d.videoConsult) &&
        (s.filters.mode != "clinic" || d.inClinic) &&
        (s.filters.specialties.size == 0 ||
          d.specialties.any (fun x => s.filters.specialties.has x))) ∧
    List.Sublist (applyFilters toLowerCase s).filteredDoctors s.doctors := by
  have hres : (applyFilters toLowerCase s).filteredDoctors =
      s.doctors.filter (keeps toLowerCase s.searchQuery s.filters) := by
    show applyFiltersResult toLowerCase s.doctors s.searchQuery s.filters = _
    rw [applyFiltersResult_eq, h]
    have h1 : ("" == "fees") = false := by decide
    have h2 : ("" == "experience") = false := by decide
    simp [h1, h2]
  constructor
  · rw [hres]
    apply List.filter_congr
    intro d _
    show keeps toLowerCase s.searchQuery s.filters d = _
    have hq : (!truthy s.searchQuery) = (s.searchQuery == "") := by
      simp only [truthy, bne, Bool.not_not]
    simp only [keeps, hq]
  · rw [hres]
    exact List.filter_sublist _

/-- Witness for C6, the worked example: query "an" with empty mode, specialties
and sort on Ann (500, 3) and Dan (300, 5) returns Ann (500, 3) then Dan (300, 5). -/
theorem applyFilters_unsorted_witness :
    (applyFilters asciiLower
        { sample "an" "" "" [] with doctors := [ann, dan] }).filteredDoctors = [ann, dan] ∧
      ann.fees = 500 ∧ ann.experience = 3 ∧ dan.fees = 300 ∧ dan.experience = 5 ∧
      List.Sublist
        (applyFilters asciiLower
          { sample "an" "" "" [] with doctors := [ann, dan] }).filteredDoctors [ann, dan] :=
  ⟨by decide, rfl, rfl, rfl, rfl,
    (applyFilters_unsorted asciiLower { sample "an" "" "" [] with doctors := [ann, dan] } rfl).2⟩

/-- C9: the list computed with sort "fees" and the list computed with sort
"experience" are each a permutation of the list computed with sort "". -/
theorem applyFilters_sort_perm (toLowerCase : String → String) (s : State) :
    List.Perm (applyFilters toLowerCase (handleSortChange s "fees")).filteredDoctors
      (applyFilters toLowerCase (handleSortChange s "")).filteredDoctors ∧
    List.Perm (applyFilters toLowerCase (handleSortChange s "experience")).filteredDoctors
      (applyFilters toLowerCase (handleSortChange s "")).filteredDoctors := by
  have h1 : ("" == "fees") = false := by decide
  have h2 : ("" == "experience") = false := by decide
  have h3 : ("experience" == "fees") = false := by decide
  have hk : ∀ x : String,
      keeps toLowerCase s.searchQuery ⟨s.filters.mode, s.filters.specialties, x⟩ =
        keeps toLowerCase s.searchQuery s.filters := fun _ => rfl
  constructor
  · show List.Perm
      (applyFiltersResult toLowerCase s.doctors s.searchQuery
        ⟨s.filters.mode, s.filters.specialties, "fees"⟩)
      (applyFiltersResult toLowerCase s.doctors s.searchQuery
        ⟨s.filters.mode, s.filters.specialties, ""⟩)
    rw [applyFiltersResult_eq, applyFiltersResult_eq]
    simp only [h1, h2, hk, beq_self_eq_true, if_true]
    exact sort_perm _ _
  · show List.Perm
      (applyFiltersResult toLowerCase s.doctors s.searchQuery
        ⟨s.filters.mode, s.filters.specialties, "experience"⟩)
      (applyFiltersResult toLowerCase s.doctors s.searchQuery
        ⟨s.filters.mode, s.filters.specialties, ""⟩)
    rw [applyFiltersResult_eq, applyFiltersResult_eq]
    simp only [h1, h2, h3, hk, beq_self_eq_true, if_true]
    exact sort_perm _ _

/-- C3: after `clearFilters` the mode is "", the specialty set is empty, the
sort is "", the query is "", there are no suggestions, and the list
`applyFilters` then computes is the full record list in its original order. -/
theorem clearFilters_restores (toLowerCase : String → String) (s : State) :
    (clearFilters s).filters.mode = "" ∧
    (clearFilters s).filters.specialties.items = [] ∧
    (clearFilters s).filters.sort = "" ∧
    (clearFilters s).searchQuery = "" ∧
    (clearFilters s).suggestions = [] ∧
    (clearFilters s).doctors = s.doctors ∧
    (applyFilters toLowerCase (clearFilters s)).filteredDoctors = s.doctors := by
  refine ⟨rfl, rfl, rfl, rfl, rfl, rfl, ?_⟩
  show applyFiltersResult toLowerCase s.doctors "" ⟨"", JSSet.empty, ""⟩ = s.doctors
  have h0 : truthy "" = false := by decide
  have h1 : ("" == "fees") = false := by decide
  have h2 : ("" == "experience") = false := by decide
  have h3 : JSSet.empty.size = 0 := rfl
  simp [applyFiltersResult, h0, h1, h2, h3]

/-! ## Autocomplete -/

/-- C5: the suggestions set by `handleSearchChange` are at most 3; when the
trimmed query is non-empty they are the first 3 (or all, if fewer) of the
records whose lower-cased name contains the lower-cased query, in the order of
the record list; when the trimmed query is empty there are none. -/
theorem handleSearchChange_suggestions (toLowerCase : String → String) (s : State)
    (query : String) :
    (handleSearchChange toLowerCase s query).suggestions.length ≤ 3 ∧
    (trim query ≠ "" →
      (handleSearchChange toLowerCase s query).suggestions =
        (s.doctors.filter
          (fun d => includes (toLowerCase d.name) (toLowerCase query))).take 3 ∧
      (handleSearchChange toLowerCase s query).suggestions <+:
        s.doctors.filter (fun d => includes (toLowerCase d.name) (toLowerCase query)) ∧
      (handleSearchChange toLowerCase s query).suggestions.length =
        min 3 (s.doctors.filter
          (fun d => includes (toLowerCase d.name) (toLowerCase query))).length) ∧
    (trim query = "" → (handleSearchChange toLowerCase s query).suggestions = []) := by
  by_cases h : trim query = ""
  · have ht : truthy (trim query) = false := by simp [truthy, h]
    have hs : (handleSearchChange toLowerCase s query).suggestions = [] := by
      simp [handleSearchChange, ht]
    refine ⟨by simp [hs], fun hne => absurd h hne, fun _ => hs⟩
  · have ht : truthy (trim query) = true := (truthy_iff _).2 h
    have hs : (handleSearchChange toLowerCase s query).suggestions =
        (s.doctors.filter
          (fun d => includes (toLowerCase d.name) (toLowerCase query))).take 3 := by
      simp [handleSearchChange, ht]
    refine ⟨?_, fun _ => ⟨hs, ?_, ?_⟩, fun he => absurd he h⟩
    · rw [hs, List.length_take]
      exact Nat.min_le_left _ _
    · rw [hs]
      exact List.take_prefix _ _
    · rw [hs, List.length_take]

/-- Witness for C5: five records match "an" and three are suggested, in list
order; a query of blanks suggests nothing. -/
theorem handleSearchChange_suggestions_witness :
    (trim "an" ≠ "" ∧
      (handleSearchChange asciiLower
        { sample "" "" "" [] with doctors := [ann, bob, dan, ann, dan, ann] } "an").suggestions =
        [ann, dan, ann]) ∧
    (trim "  " = "" ∧
      (handleSearchChange asciiLower
        { sample "" "" "" [] with doctors := [ann, bob, dan, ann, dan, ann] } "  ").suggestions =
        []) :=
  ⟨⟨by decide,
    ((handleSearchChange_suggestions asciiLower
      { sample "" "" "" [] with doctors := [ann, bob, dan, ann, dan, ann] } "an").2.1
        (by decide)).1.trans (by decide)⟩,
   ⟨by decide,
    (handleSearchChange_suggestions asciiLower
      { sample "" "" "" [] with doctors := [ann, bob, dan, ann, dan, ann] } "  ").2.2
        (by decide)⟩⟩

/-! ## The host set -/

theorem JSSet.eq_of_items_eq {a b : JSSet} (h : a.items = b.items) : a = b := by
  cases a
  cases b
  cases h
  rfl

theorem JSSet.items_add (s : JSSet) (x : String) :
    (s.add x).items = if x ∈ s.items then s.items else s.items ++ [x] := by
  unfold JSSet.add
  split <;> rfl

theorem JSSet.foldl_add_items (l : List String) :
    ∀ acc : JSSet, (acc.items ++ l).Nodup → (l.foldl JSSet.add acc).items = acc.items ++ l := by
  induction l with
  | nil => intro acc _; simp
  | cons x l ih =>
    intro acc h
    have hx : x ∉ acc.items := by
      intro hmem
      have := (List.nodup_append.1 h).2.2
      exact this hmem (List.mem_cons_self x l)
    have hadd : (acc.add x).items = acc.items ++ [x] := by
      rw [JSSet.items_add, if_neg hx]
    rw [List.foldl_cons, ih (acc.add x) (by rw [hadd]; simpa using h), hadd]
    simp

theorem JSSet.ofList_items (s : JSSet) : JSSet.ofList s.items = s := by
  apply JSSet.eq_of_items_eq
  have := JSSet.foldl_add_items s.items JSSet.empty (by simpa [JSSet.empty] using s.nodup)
  simpa [JSSet.ofList, JSSet.empty] using this

theorem JSSet.copy_eq (s : JSSet) : s.copy = s := JSSet.ofList_items s

theorem JSSet.has_add (s : JSSet) (x y : String) :
    (s.add x).has y = (s.has y || y == x) := by
  unfold JSSet.has
  rw [JSSet.items_add]
  by_cases hx : x ∈ s.items
  · by_cases hy : y = x
    · subst hy
      simp [hx]
    · simp [hx, hy]
  · by_cases hy : y = x
    · subst hy
      simp [hx]
    · simp [hx, hy]

theorem JSSet.has_delete (s : JSSet) (x y : String) :
    (s.delete x).has y = (s.has y && y != x) := by
  unfold JSSet.has JSSet.delete
  by_cases hy : y = x
  · subst hy
    simp
  · by_cases hm : y ∈ s.items <;> simp [hm, hy, List.mem_filter]

theorem has_toggle (s : State) (x y : String) :
    (handleSpecialtyToggle s x).filters.specialties.has y =
      if y = x then !s.filters.specialties.has y else s.filters.specialties.has y := by
  show (if s.filters.specialties.copy.has x = true then s.filters.specialties.copy.delete x
      else s.filters.specialties.copy.add x).has y = _
  rw [JSSet.copy_eq]
  by_cases hx : s.filters.specialties.has x = true
  · rw [if_pos hx, JSSet.has_delete]
    by_cases hy : y = x
    · subst hy
      simp [hx]
    · simp [hy]
  · rw [if_neg hx, JSSet.has_add]
    by_cases hy : y = x
    · subst hy
      simp [hx]
    · simp [hy]

/-! ## Specialty checkboxes -/

/-- C10: `handleSpecialtyToggle` leaves mode and sort unchanged and flips the
membership of the toggled name only; toggling the same name twice gives a
filter state with the same mode, the same sort and the same set of specialties. -/
theorem handleSpecialtyToggle_flips (s : State) (specialty : String) :
    (handleSpecialtyToggle s specialty).filters.mode = s.filters.mode ∧
    (handleSpecialtyToggle s specialty).filters.sort = s.filters.sort ∧
    (∀ y, (handleSpecialtyToggle s specialty).filters.specialties.has y =
      if y = specialty then !s.filters.specialties.has y else s.filters.specialties.has y) ∧
    (handleSpecialtyToggle (handleSpecialtyToggle s specialty) specialty).filters.mode =
      s.filters.mode ∧
    (handleSpecialtyToggle (handleSpecialtyToggle s specialty) specialty).filters.sort =
      s.filters.sort ∧
    (∀ y, (handleSpecialtyToggle (handleSpecialtyToggle s specialty)
      specialty).filters.specialties.has y = s.filters.specialties.has y) ∧
    List.Perm
      (handleSpecialtyToggle (handleSpecialtyToggle s specialty) specialty).filters.specialties.items
      s.filters.specialties.items := by
  have htwice : ∀ y, (handleSpecialtyToggle (handleSpecialtyToggle s specialty)
      specialty).filters.specialties.has y = s.filters.specialties.has y := by
    intro y
    rw [has_toggle, has_toggle]
    by_cases hy : y = specialty <;> simp [hy]
  refine ⟨rfl, rfl, has_toggle s specialty, rfl, rfl, htwice, ?_⟩
  refine (List.perm_ext_iff_of_nodup (JSSet.nodup _) (JSSet.nodup _)).2 ?_
  intro y
  have := htwice y
  simpa [JSSet.has] using this

/-! ## URL parameters -/

theorem foldl_append_specialty (l : List String) :
    ∀ p : URLSearchParams,
      l.foldl (fun q specialty => URLSearchParams.append q "specialty" specialty) p =
        p ++ l.map (fun x => ("specialty", x)) := by
  induction l with
  | nil => intro p; simp
  | cons x l ih =>
    intro p
    rw [List.foldl_cons, ih]
    simp [URLSearchParams.append]

theorem get_cons (kv : String × String) (p : URLSearchParams) (name : String) :
    URLSearchParams.get (kv :: p) name =
      if kv.1 == name then some kv.2 else URLSearchParams.get p name := by
  unfold URLSearchParams.get
  rw [List.find?_cons]
  cases kv.1 == name <;> rfl

theorem get_specialties (l : List String) (name : String) (h : ("specialty" == name) = false) :
    URLSearchParams.get (l.map (fun x => ("specialty", x))) name = none := by
  induction l with
  | nil => rfl
  | cons x l ih =>
    rw [List.map_cons, get_cons]
    simp only [h]
    exact ih

theorem getAll_cons (kv : String × String) (p : URLSearchParams) (name : String) :
    URLSearchParams.getAll (kv :: p) name =
      if kv.1 == name then kv.2 :: URLSearchParams.getAll p name
      else URLSearchParams.getAll p name := by
  unfold URLSearchParams.getAll
  rw [List.filter_cons]
  cases kv.1 == name <;> rfl

theorem getAll_specialties (l : List String) :
    URLSearchParams.getAll (l.map (fun x => ("specialty", x))) "specialty" = l := by
  induction l with
  | nil => rfl
  | cons x l ih =>
    rw [List.map_cons, getAll_cons]
    simp only [beq_self_eq_true, if_true]
    rw [ih]

theorem orEmpty_some (x : String) : orEmpty (some x) = x := by
  unfold orEmpty
  by_cases h : x = ""
  · subst h
    rfl
  · simp [(truthy_iff x).2 h]

theorem not_truthy (x : String) (h : ¬ truthy x = true) : x = "" := by
  by_contra hne
  exact h ((truthy_iff x).2 hne)

/-- The parameters built by the effect, written out. -/
theorem buildParams_eq (filters : Filters) (searchQuery : String) :
    buildParams filters searchQuery =
      (if truthy filters.mode then [("mode", filters.mode)] else []) ++
      ((if truthy filters.sort then [("sort", filters.sort)] else []) ++
      ((if truthy searchQuery then [("search", searchQuery)] else []) ++
      filters.specialties.items.map (fun x => ("specialty", x)))) := by
  have e1 : ("mode" == "sort") = false := by decide
  have e2 : ("mode" == "search") = false := by decide
  have e3 : ("sort" == "search") = false := by decide
  unfold buildParams
  simp only [foldl_append_specialty]
  by_cases hm : truthy filters.mode = true <;> by_cases hs : truthy filters.sort = true <;>
    by_cases hq : truthy searchQuery = true <;>
    simp [hm, hs, hq, URLSearchParams.set, URLSearchParams.append, e1, e2, e3]

/-- C4: building the parameters as the URL synchronisation effect does and
parsing them as the initial state does gives back the same mode, the same sort
and the same set of specialties, for every filter state and search query. -/
theorem url_round_trip (filters : Filters) (searchQuery : String) :
    (initialState (buildParams filters searchQuery)).filters.mode = filters.mode ∧
    (initialState (buildParams filters searchQuery)).filters.sort = filters.sort ∧
    (initialState (buildParams filters searchQuery)).filters.specialties =
      filters.specialties ∧
    (∀ x, (initialState (buildParams filters searchQuery)).filters.specialties.has x =
      filters.specialties.has x) := by
  have e1 : ("mode" == "sort") = false := by decide
  have e2 : ("mode" == "specialty") = false := by decide
  have e3 : ("sort" == "mode") = false := by decide
  have e4 : ("sort" == "specialty") = false := by decide
  have e5 : ("search" == "mode") = false := by decide
  have e6 : ("search" == "sort") = false := by decide
  have e7 : ("search" == "specialty") = false := by decide
  have e8 : ("specialty" == "mode") = false := by decide
  have e9 : ("specialty" == "sort") = false := by decide
  have hmode : orEmpty (URLSearchParams.get (buildParams filters searchQuery) "mode") =
      filters.mode := by
    rw [buildParams_eq]
    by_cases hm : truthy filters.mode = true <;> by_cases hs : truthy filters.sort = true <;>
      by_cases hq : truthy searchQuery = true <;>
      simp only [hm, hs, hq, if_true, if_false, List.cons_append, List.nil_append, get_cons,
        e3, e5, e8, beq_self_eq_true, get_specialties _ _ e8, orEmpty_some, Bool.false_eq_true]
    all_goals exact (not_truthy _ hm).symm
  have hsort : orEmpty (URLSearchParams.get (buildParams filters searchQuery) "sort") =
      filters.sort := by
    rw [buildParams_eq]
    by_cases hm : truthy filters.mode = true <;> by_cases hs : truthy filters.sort = true <;>
      by_cases hq : truthy searchQuery = true <;>
      simp only [hm, hs, hq, if_true, if_false, List.cons_append, List.nil_append, get_cons,
        e1, e6, e9, beq_self_eq_true, get_specialties _ _ e9, orEmpty_some, Bool.false_eq_true]
    all_goals exact (not_truthy _ hs).symm
  have hspec : URLSearchParams.getAll (buildParams filters searchQuery) "specialty" =
      filters.specialties.items := by
    rw [buildParams_eq]
    by_cases hm : truthy filters.mode = true <;> by_cases hs : truthy filters.sort = true <;>
      by_cases hq : truthy searchQuery = true <;>
      simp only [hm, hs, hq, if_true, if_false, List.cons_append, List.nil_append, getAll_cons,
        e2, e4, e7, getAll_specialties, Bool.false_eq_true]
  have hset : (initialState (buildParams filters searchQuery)).filters.specialties =
      filters.specialties := by
    show JSSet.ofList (URLSearchParams.getAll (buildParams filters searchQuery) "specialty") = _
    rw [hspec, JSSet.ofList_items]
  exact ⟨hmode, hsort, hset, fun x => by rw [hset]⟩

/-- C7, the `search` parameter: the initial search query is "" for every
query string, so for `?search=ann` it is not the parameter's value, and the
first run of the URL effect drops the parameter; `mode`, `sort` and
`specialty` of the same query string are read. -/
theorem initialState_ignores_search :
    (∀ searchParams : URLSearchParams, (initialState searchParams).searchQuery = "") ∧
    URLSearchParams.get
      [("search", "ann"), ("mode", "video"), ("sort", "fees"), ("specialty", "ENT")]
      "search" = some "ann" ∧
    (initialState
      [("search", "ann"), ("mode", "video"), ("sort", "fees"),
        ("specialty", "ENT")]).searchQuery ≠ "ann" ∧
    (initialState
      [("search", "ann"), ("mode", "video"), ("sort", "fees"),
        ("specialty", "ENT")]).filters.mode = "video" ∧
    (initialState
      [("search", "ann"), ("mode", "video"), ("sort", "fees"),
        ("specialty", "ENT")]).filters.sort = "fees" ∧
    (initialState
      [("search", "ann"), ("mode", "video"), ("sort", "fees"),
        ("specialty", "ENT")]).filters.specialties.items = ["ENT"] ∧
    (mount asciiLower
      [("search", "ann"), ("mode", "video"), ("sort", "fees"),
        ("specialty", "ENT")]).searchParams =
      [("mode", "video"), ("sort", "fees"), ("specialty", "ENT")] := by
  refine ⟨fun _ => rfl, by decide, by decide, by decide, by decide, by decide, by decide⟩

/-! ## Reachable filter states -/

theorem dispatch_enumerated (toLowerCase : String → String) (s : State) (e : Event)
    (h : enumerated s.filters) : enumerated (dispatch toLowerCase s e).filters := by
  cases e with
  | fetched doctors => exact h
  | searchInput value =>
    show enumerated (handleSearchChange toLowerCase s value).filters
    unfold handleSearchChange
    split <;> exact h
  | suggestionClick index =>
    show enumerated (match s.suggestions.get? index with
      | some doctor => handleSelectSuggestion s doctor.name
      | none => s).filters
    split <;> exact h
  | sortFees => exact ⟨h.1, Or.inr (Or.inl rfl)⟩
  | sortExperience => exact ⟨h.1, Or.inr (Or.inr rfl)⟩
  | clearAll => exact ⟨Or.inl rfl, Or.inl rfl⟩
  | specialtyCheckbox index =>
    show enumerated (match allSpecialties.get? index with
      | some display => handleSpecialtyToggle s display
      | none => s).filters
    split
    · exact h
    · exact h
  | modeVideo => exact ⟨Or.inr (Or.inl rfl), h.2⟩
  | modeClinic => exact ⟨Or.inr (Or.inr rfl), h.2⟩
  | modeAll => exact ⟨Or.inl rfl, h.2⟩

theorem run_enumerated (toLowerCase : String → String) (events : List Event) :
    ∀ s : State, enumerated s.filters → enumerated (run toLowerCase s events).filters := by
  induction events with
  | nil => intro s h; exact h
  | cons e events ih =>
    intro s h
    exact ih (step toLowerCase s e) (dispatch_enumerated toLowerCase s e h)

/-- C8 as stated fails: the query string `?mode=foo` gives, before any event,
a state whose mode is "foo". -/
theorem reachable_mode_counterexample :
    ¬ ∀ (searchParams : URLSearchParams) (events : List Event),
      enumerated (run asciiLower (mount asciiLower searchParams) events).filters := by
  intro h
  have h1 := h [("mode", "foo")] []
  revert h1
  decide

/-- C8, amended: when the `mode` parameter of the initial query string is
absent or one of "", "video", "clinic" and its `sort` parameter is absent or
one of "", "fees", "experience", every state reached by any sequence of events
has a mode among "", "video", "clinic" and a sort among "", "fees", "experience". -/
theorem reachable_enumerated (toLowerCase : String → String) (searchParams : URLSearchParams)
    (events : List Event)
    (hmode : ∀ m, searchParams.get "mode" = some m → m = "" ∨ m = "video" ∨ m = "clinic")
    (hsort : ∀ x, searchParams.get "sort" = some x → x = "" ∨ x = "fees" ∨ x = "experience") :
    enumerated (run toLowerCase (mount toLowerCase searchParams) events).filters := by
  apply run_enumerated
  show enumerated (initialState searchParams).filters
  constructor
  · have e : (initialState searchParams).filters.mode = orEmpty (searchParams.get "mode") := rfl
    rw [e]
    cases hg : searchParams.get "mode" with
    | none => exact Or.inl rfl
    | some m =>
      rw [orEmpty_some]
      exact hmode m hg
  · have e : (initialState searchParams).filters.sort = orEmpty (searchParams.get "sort") := rfl
    rw [e]
    cases hg : searchParams.get "sort" with
    | none => exact Or.inl rfl
    | some x =>
      rw [orEmpty_some]
      exact hsort x hg

/-- Witness for C8 (amended): from `?mode=video&specialty=ENT`, after the
records load and the user types, sorts, toggles, picks a mode and clears. -/
theorem reachable_enumerated_witness :
    enumerated
      (run asciiLower (mount asciiLower [("mode", "video"), ("specialty", "ENT")])
        [Event.fetched [ann, bob, dan], Event.searchInput "an", Event.suggestionClick 1,
          Event.sortExperience, Event.specialtyCheckbox 1, Event.modeClinic,
          Event.clearAll, Event.sortFees]).filters ∧
    (run asciiLower (mount asciiLower [("mode", "video"), ("specialty", "ENT")])
        [Event.fetched [ann, bob, dan], Event.searchInput "an", Event.suggestionClick 1,
          Event.sortExperience, Event.specialtyCheckbox 1,
          Event.modeClinic]).filteredDoctors = [dan] :=
  ⟨reachable_enumerated asciiLower [("mode", "video"), ("specialty", "ENT")]
    [Event.fetched [ann, bob, dan], Event.searchInput "an", Event.suggestionClick 1,
      Event.sortExperience, Event.specialtyCheckbox 1, Event.modeClinic,
      Event.clearAll, Event.sortFees] (by decide) (by decide), by decide⟩

end DoctorApp
